import Mathlib

/-!
Verification of the multi-branch orchestration core (src/utils.py,
src/branch_ops.py, src/reporting.py, src/orchestrator.py) against its
natural-language specification.

The embedding is shallow: each Python function is translated into an
executable Lean definition.  External effects (the `git` subprocess, the
wall clock, `time.sleep`) are modelled explicitly:

* the external tool is an oracle `GitExec` mapping an argument list to a
  `CommandResult` (the contract of `execute_command`);
* `time.sleep` calls are recorded as a list of slept durations;
* Python `float` arithmetic on delays is modelled by exact rationals
  (the backoff schedule claims are about the multiplicative structure);
* a raised Python exception is modelled as the `.error` branch of
  `Except String` carrying the exception text;
* `datetime.now()` reads are passed in as explicit rational parameters,
  and fields that merely record the wall clock (OperationResult.timestamp,
  Report.timestamp) are omitted since no code path reads them back.
-/

namespace NavaOps

/-! ## Python string primitives used by the translated code -/

/-- Python `pat in s` substring test. -/
def pyContains (s pat : String) : Bool :=
  decide (pat.data <:+: s.data)

/-- Python `s.strip(chars)`: drop leading and trailing characters that
belong to `cs`. -/
def stripCharsList (cs : List Char) (l : List Char) : List Char :=
  ((l.dropWhile (fun c => c ∈ cs)).reverse.dropWhile (fun c => c ∈ cs)).reverse

/-- Python `str.isspace` on one character. -/
def pyIsSpace (c : Char) : Bool :=
  c ∈ [' ', '\t', '\n', '\r', '\x0b', '\x0c']

/-- Python `s.strip()` (no argument): strip surrounding whitespace. -/
def pyStripWs (s : String) : String :=
  String.mk (stripCharsList [' ', '\t', '\n', '\r', '\x0b', '\x0c'] s.data)

/-- Python `s.startswith(pre)`. -/
def pyStartsWith (s pre : String) : Bool :=
  pre.data.isPrefixOf s.data

/-- Python `s.endswith(suf)`. -/
def pyEndsWith (s suf : String) : Bool :=
  suf.data.isSuffixOf s.data

/-- Splitting a character list at every occurrence of one character,
keeping empty segments — Python `s.split(c)` for a one-character
separator. -/
def splitOnCharList (c : Char) (l : List Char) : List (List Char) :=
  l.foldr (fun x acc =>
    match acc with
    | [] => [[x]]
    | cur :: rest => if x = c then [] :: (cur :: rest) else (x :: cur) :: rest) [[]]

/-- Python `s.split()` (no argument): split on whitespace runs, dropping
empty pieces. -/
def pySplitWs (s : String) : List String :=
  ((s.data.foldr (fun x acc =>
    match acc with
    | [] => [[x]]
    | cur :: rest => if pyIsSpace x then [] :: (cur :: rest) else (x :: cur) :: rest)
    [[]]).filter (fun t => t ≠ [])).map String.mk

/-- Index of the first occurrence of the (nonempty) pattern `pat` as a
contiguous block of `l`. -/
def findSubstrIdx (pat : List Char) : List Char → Option Nat
  | [] => if pat = [] then some 0 else none
  | c :: rest =>
    if pat.isPrefixOf (c :: rest) then some 0
    else
      match findSubstrIdx pat rest with
      | some i => some (i + 1)
      | none => none

/-- Python `s.split(sep)[0]`: the part before the first occurrence of
`sep` (the whole string when `sep` does not occur). -/
def pySplit0 (s sep : String) : String :=
  match findSubstrIdx sep.data s.data with
  | some i => String.mk (s.data.take i)
  | none => s

/-- Python `s.split(sep)[1]`: the part between the first occurrence of
`sep` and the next non-overlapping one (callers guard on `sep in s`, so
the out-of-range case is never exercised). -/
def pySplit1 (s sep : String) : String :=
  match findSubstrIdx sep.data s.data with
  | none => ""
  | some i => pySplit0 (String.mk (s.data.drop (i + sep.data.length))) sep

/-- Python slice `l[a:b]` on a character list. -/
def pySlice (l : List Char) (a b : Nat) : List Char :=
  (l.take b).drop a

/-- Python `s.find(c)` for a character known to occur (callers guard with
a containment test; when absent the returned index is `l.length`, which the
translated code never relies on). -/
def pyFindIdx (l : List Char) (c : Char) : Nat :=
  l.findIdx (fun x => x = c)

/-- Numeric value of a digit run. -/
def digitsVal (l : List Char) : Nat :=
  l.foldl (fun acc c => acc * 10 + (c.toNat - 48)) 0

/-- Python `int(s)`: optional surrounding whitespace and sign followed by
at least one digit; anything else raises `ValueError`. -/
def pyInt (s : String) : Except String Int :=
  let t := pyStripWs s
  let signDigits : Int × List Char :=
    match t.data with
    | '-' :: rest => (-1, rest)
    | '+' :: rest => (1, rest)
    | l => (1, l)
  if signDigits.2 ≠ [] ∧ signDigits.2.all Char.isDigit then
    .ok (signDigits.1 * (digitsVal signDigits.2 : Int))
  else
    .error ("invalid literal for int: " ++ s)

/-- Single-quote character, used to build the message strings verbatim. -/
def sq : String := String.singleton (Char.ofNat 39)

/-! ## utils.py -/

/-- Result of a command execution (`CommandResult` in src/utils.py). -/
structure CommandResult where
  success : Bool
  stdout : String
  stderr : String
  returncode : Int
deriving Repr, DecidableEq

/-- One invocation of the function handed to `retry_with_backoff`: it can
return a `CommandResult`, return a value of some other type, or raise. -/
inductive FuncStep where
  | cmd (r : CommandResult)
  | other
  | exn (e : String)
deriving Repr, DecidableEq

/-- How one call of `retry_with_backoff` terminates. -/
inductive RetryResult where
  | cmd (r : CommandResult)
  | other
  | raised (e : String)
  | runtimeError
deriving Repr, DecidableEq

/-- Observable behaviour of one `retry_with_backoff` call: the returned or
raised outcome, the number of invocations of the wrapped function, and the
durations passed to `time.sleep` in order. -/
structure RetryTrace where
  result : RetryResult
  invocations : Nat
  sleeps : List ℚ
deriving Repr, DecidableEq

/-- Loop body of `retry_with_backoff` (src/utils.py lines 149-183).
`attempt` is the 1-based loop counter and `remaining` the number of loop
iterations still to run (`max_attempts - attempt + 1`), so `remaining = 1`
exactly when `attempt == max_attempts`. -/
def retryGo (f : Nat → FuncStep) (base : ℚ) :
    Nat → Nat → ℚ → List ℚ → RetryTrace
  | attempt, 0, _, sleeps => ⟨.runtimeError, attempt - 1, sleeps⟩
  | attempt, r + 1, delay, sleeps =>
    match f attempt with
    | .cmd res =>
      if res.success then ⟨.cmd res, attempt, sleeps⟩
      else if r = 0 then ⟨.cmd res, attempt, sleeps⟩
      else retryGo f base (attempt + 1) r (delay * base) (sleeps ++ [delay])
    | .other => ⟨.other, attempt, sleeps⟩
    | .exn e =>
      if r = 0 then ⟨.raised e, attempt, sleeps⟩
      else retryGo f base (attempt + 1) r (delay * base) (sleeps ++ [delay])

/-- `retry_with_backoff` from src/utils.py.  The wrapped function is
modelled as a map from the 1-based invocation index to that invocation's
behaviour.  With `max_attempts = 0` the Python `for` loop body never runs
and line 186 raises `RuntimeError`, reflected by `.runtimeError`. -/
def retry_with_backoff (f : Nat → FuncStep) (max_attempts : Nat)
    (initial_delay exponential_base : ℚ) : RetryTrace :=
  retryGo f exponential_base 1 max_attempts initial_delay []

/-- The `invalid_chars` list from `validate_branch_name`; entries are
matched by Python substring containment, so `".."` is a two-character
pattern. -/
def invalid_chars : List String := [" ", "~", "^", ":", "?", "*", "[", "\\", ".."]

/-- `validate_branch_name` from src/utils.py. -/
def validate_branch_name (branch_name : String) : Bool :=
  if branch_name = "" then false
  else if invalid_chars.any (fun c => pyContains branch_name c) then false
  else if pyStartsWith branch_name "/" || pyEndsWith branch_name "/" then false
  else if pyEndsWith branch_name ".lock" then false
  else true

/-! ## branch_ops.py: BranchOperations over an external-tool oracle

The subprocess boundary (`execute_command` in src/utils.py) is modelled by
an oracle mapping the full git argument list to the `CommandResult` the
external world answers with.  Every translated method additionally returns
the list of external invocations it performed, in order, so that claims
about "touching the external tool" are statable. -/

/-- Oracle for the external command invocation contract: argument list
(without the leading `git`) to `CommandResult`. -/
structure GitExec where
  run : List String → CommandResult

/-- `execute_git_command` from src/utils.py: one external invocation,
recorded in the log as the full command line. -/
def execute_git_command (g : GitExec) (args : List String) :
    CommandResult × List (List String) :=
  (g.run args, [("git" :: args)])

/-- Information about a Git branch (`BranchInfo` in src/branch_ops.py). -/
structure BranchInfo where
  name : String
  current : Bool
  remote : Option String
  last_commit : Option String
  last_commit_date : Option String
  ahead : Int
  behind : Int
deriving Repr, DecidableEq

/-- Result of a branch operation (`OperationResult` in src/branch_ops.py);
the wall-clock `timestamp` field is omitted (never read back by the core). -/
structure OperationResult where
  success : Bool
  branch_name : String
  operation : String
  message : String
  error : Option String
deriving Repr, DecidableEq

/-- `BranchOperations.get_current_branch` from src/branch_ops.py. -/
def get_current_branch (g : GitExec) : Option String × List (List String) :=
  let (result, log) := execute_git_command g ["rev-parse", "--abbrev-ref", "HEAD"]
  (if result.success then
      let branch := pyStripWs result.stdout
      if branch = "HEAD" then none else some branch
    else none, log)

/-- Parsing of one line of `git branch -vv` output, from the body of the
loop in `BranchOperations.list_branches` (src/branch_ops.py lines 129-168).
`Except` carries the `ValueError` a malformed ahead/behind count raises;
`.ok none` is a skipped line. -/
def parse_branch_line (current_branch : Option String) (line : String) :
    Except String (Option BranchInfo) :=
  if pyStripWs line = "" then .ok none
  else
    let is_current := pyStartsWith line "*"
    let parts := pySplitWs (String.mk (stripCharsList ['*', ' '] line.data))
    match parts with
    | [] => .ok none
    | branch_name :: rest =>
      let commit_hash := rest.head?
      if pyContains line "[" && pyContains line "]" then
        let li := line.data
        let tracking_info :=
          String.mk (pySlice li (pyFindIdx li '[' + 1) (pyFindIdx li ']'))
        let remote :=
          if pyContains tracking_info ":" then
            some (pySplit0 tracking_info ":")
          else none
        match (if pyContains tracking_info "ahead" then
            pyInt (pyStripWs (pySplit0 (pySplit1 tracking_info "ahead") "]"))
          else .ok 0) with
        | .error e => .error e
        | .ok ahead =>
          match (if pyContains tracking_info "behind" then
              pyInt (pyStripWs (pySplit0 (pySplit1 tracking_info "behind") ","))
            else .ok 0) with
          | .error e => .error e
          | .ok behind =>
            .ok (some ⟨branch_name, is_current || (current_branch = some branch_name),
              remote, commit_hash, none, ahead, behind⟩)
      else
        .ok (some ⟨branch_name, is_current || (current_branch = some branch_name),
          none, commit_hash, none, 0, 0⟩)

/-- Accumulating loop of `list_branches`: a parse exception aborts the walk
with the lines processed so far discarded, as in Python. -/
def parse_branch_lines (current_branch : Option String) :
    List String → Except String (List BranchInfo)
  | [] => .ok []
  | line :: rest =>
    match parse_branch_line current_branch line with
    | .error e => .error e
    | .ok none => parse_branch_lines current_branch rest
    | .ok (some b) =>
      match parse_branch_lines current_branch rest with
      | .error e => .error e
      | .ok bs => .ok (b :: bs)

/-- `BranchOperations.list_branches` from src/branch_ops.py. -/
def list_branches (g : GitExec) (include_remote : Bool) :
    Except String (List BranchInfo) × List (List String) :=
  let args := ["branch", "-vv"] ++ (if include_remote then ["-a"] else [])
  let (result, log1) := execute_git_command g args
  if !result.success then (.ok [], log1)
  else
    let (current_branch, log2) := get_current_branch g
    (parse_branch_lines current_branch
      ((splitOnCharList '\n' result.stdout.data).map String.mk), log1 ++ log2)

/-- `BranchOperations.create_branch` from src/branch_ops.py. -/
def create_branch (g : GitExec) (branch_name : String) (from_branch : Option String) :
    Except String OperationResult × List (List String) :=
  if !validate_branch_name branch_name then
    (.ok ⟨false, branch_name, "create", "Invalid branch name",
      some "Branch name contains invalid characters"⟩, [])
  else
    let (branchesE, log1) := list_branches g false
    match branchesE with
    | .error e => (.error e, log1)
    | .ok branches =>
      if branches.any (fun b => b.name = branch_name) then
        (.ok ⟨false, branch_name, "create", "Branch already exists",
          some ("Branch " ++ sq ++ branch_name ++ sq ++ " already exists")⟩, log1)
      else
        let args := ["branch", branch_name] ++ from_branch.toList
        let (result, log2) := execute_git_command g args
        (.ok ⟨result.success, branch_name, "create",
          (if result.success then
            "Branch " ++ sq ++ branch_name ++ sq ++ " created successfully"
          else "Failed to create branch"),
          (if result.success then none else some result.stderr)⟩, log1 ++ log2)

/-- `BranchOperations.switch_branch` from src/branch_ops.py.  Unlike
`create_branch` it performs no `validate_branch_name` check. -/
def switch_branch (g : GitExec) (branch_name : String) (create_if_missing : Bool) :
    Except String OperationResult × List (List String) :=
  let (branchesE, log1) := list_branches g false
  match branchesE with
  | .error e => (.error e, log1)
  | .ok branches =>
    let branch_exists := branches.any (fun b => b.name = branch_name)
    if !branch_exists && !create_if_missing then
      (.ok ⟨false, branch_name, "switch", "Branch does not exist",
        some ("Branch " ++ sq ++ branch_name ++ sq ++ " not found")⟩, log1)
    else
      let args := ["checkout"]
        ++ (if create_if_missing && !branch_exists then ["-b"] else []) ++ [branch_name]
      let (result, log2) := execute_git_command g args
      (.ok ⟨result.success, branch_name, "switch",
        (if result.success then "Switched to branch " ++ sq ++ branch_name ++ sq
          else "Failed to switch branch"),
        (if result.success then none else some result.stderr)⟩, log1 ++ log2)

/-! ## reporting.py -/

/-- Value of one entry of a Python status dictionary (mixed str/int/bool
values in `get_branch_status`). -/
inductive PyValue where
  | str (s : String)
  | int (n : Int)
  | bool (b : Bool)
deriving Repr, DecidableEq

/-- Model of a Python dictionary with string keys, as produced by
`get_branch_status` and stored in `BranchReport.status`. -/
abbrev PyDict := List (String × PyValue)

/-- `ReportSummary` from src/reporting.py; datetimes are modelled as
rational second counts. -/
structure ReportSummary where
  total_operations : Nat
  successful_operations : Nat
  failed_operations : Nat
  total_branches : Nat
  total_repositories : Nat
  start_time : ℚ
  end_time : ℚ
  duration_seconds : ℚ
deriving Repr, DecidableEq

/-- The `success_rate` property of `ReportSummary`. -/
def ReportSummary.success_rate (s : ReportSummary) : ℚ :=
  if s.total_operations = 0 then 0
  else ((s.successful_operations : ℚ) / (s.total_operations : ℚ)) * 100

/-- `BranchReport` from src/reporting.py. -/
structure BranchReport where
  branch_name : String
  repository : String
  operations : List OperationResult
  status : PyDict
  success : Bool
deriving Repr, DecidableEq

/-- `Report` from src/reporting.py; the wall-clock `timestamp` field is
omitted (only used to name export files, which are out of scope). -/
structure Report where
  summary : ReportSummary
  branch_reports : List BranchReport
  errors : List String
deriving Repr, DecidableEq

/-- `ReportGenerator.create_report` from src/reporting.py.  `errors or []`
in Python yields `[]` both for `None` and for an empty list, which
`(errors.getD []).` reproduces. -/
def create_report (branch_reports : List BranchReport)
    (start_time end_time : ℚ) (errors : Option (List String)) : Report :=
  let total_ops := (branch_reports.map (fun br => br.operations.length)).sum
  let successful_ops :=
    (branch_reports.map (fun br => (br.operations.filter (fun op => op.success)).length)).sum
  let repos := (branch_reports.map (fun br => br.repository)).dedup
  { summary :=
      { total_operations := total_ops
        successful_operations := successful_ops
        failed_operations := total_ops - successful_ops
        total_branches := branch_reports.length
        total_repositories := repos.length
        start_time := start_time
        end_time := end_time
        duration_seconds := end_time - start_time }
    branch_reports := branch_reports
    errors := errors.getD [] }

/-! ## config.py data model (the fields the orchestrator reads) -/

/-- `BranchConfig` from src/config.py. -/
structure BranchConfig where
  name : String
  remote : String := "origin"
  auto_fetch : Bool := true
  merge_strategy : String := "merge"
  is_default : Bool := false
deriving Repr, DecidableEq

/-- `RepositoryConfig` from src/config.py. -/
structure RepositoryConfig where
  path : String
  name : String
  branches : List BranchConfig := []
  default_remote : String := "origin"
deriving Repr, DecidableEq

/-- `Config` from src/config.py (the `reporting` sub-config only controls
file export, out of scope here). -/
structure Config where
  repositories : List RepositoryConfig := []
  parallel_operations : Bool := true
  max_workers : Int := 4
  retry_attempts : Int := 3
  retry_delay : ℚ := 2
deriving Repr, DecidableEq

/-! ## orchestrator.py

The orchestrator calls into the branch-operations layer through four
boundaries, modelled as oracles:

* `mkBranchOps` — the `BranchOperations(...)` constructor (raises
  `GitCommandError` when the path is not a git repository);
* `opCall` — the dispatched branch-operation method call inside
  `execute_operation_on_branch` (`Except` models a raised exception);
* `mkMultiOps` — the `MultiBranchOperations(...)` constructor at
  orchestrator.py line 172 (same raising behaviour as `mkBranchOps`);
* `getStatus` — `BranchOperations.get_branch_status`.

Quantifying claim theorems over the oracle makes them hold for every
behaviour of the lower layer, which the separately verified
`retry_with_backoff` and `BranchOperations` definitions refine. -/

structure RepoEnv where
  mkBranchOps : RepositoryConfig → Option String
  opCall : RepositoryConfig → BranchConfig → String → Except String OperationResult
  mkMultiOps : RepositoryConfig → Option String
  getStatus : RepositoryConfig → String → Except String PyDict

/-- The keys of the `operations_map` dictionary in
`MultibranchOrchestrator.execute_operation_on_branch`. -/
def operations_map_keys : List String :=
  ["fetch", "pull", "push", "create", "switch", "merge"]

/-- `MultibranchOrchestrator.execute_operation_on_branch` from
src/orchestrator.py.  The `try` block spans the `BranchOperations`
construction, the unknown-operation check, and the dispatched call; any
exception is converted into a failed `OperationResult`. -/
def execute_operation_on_branch (mkOps : Option String)
    (call : String → Except String OperationResult)
    (branch_name : String) (operation : String) : OperationResult :=
  match mkOps with
  | some e => ⟨false, branch_name, operation, "Operation failed with exception", some e⟩
  | none =>
    if operation ∈ operations_map_keys then
      match call operation with
      | .ok r => r
      | .error e =>
        ⟨false, branch_name, operation, "Operation failed with exception", some e⟩
    else
      ⟨false, branch_name, operation, "Unknown operation: " ++ operation,
        some ("Operation " ++ sq ++ operation ++ sq ++ " is not supported")⟩

/-- Branch filtering at the top of `execute_workflow_on_repository` (and
repeated in `custom_workflow`).  Python's `if branches:` is a truthiness
test, so an empty filter list behaves like `None` and selects every
configured branch. -/
def target_branches_for (repo : RepositoryConfig)
    (branches : Option (List String)) : List BranchConfig :=
  match branches with
  | some bs => if bs = [] then repo.branches else repo.branches.filter (fun bc => bc.name ∈ bs)
  | none => repo.branches

/-- Repository filtering in `execute_workflow` and `custom_workflow`, with
the same truthiness semantics. -/
def target_repos_for (config : Config)
    (repositories : Option (List String)) : List RepositoryConfig :=
  match repositories with
  | some rs =>
    if rs = [] then config.repositories
    else config.repositories.filter (fun r => r.name ∈ rs)
  | none => config.repositories

/-- Per-branch body of the loop in `execute_workflow_on_repository`
(src/orchestrator.py lines 180-223): run every requested operation in
order, then query status (an exception there leaves the status empty and
appends to `self.errors`), then build the `BranchReport` whose `success`
is the conjunction of its operation results.  Returns the report, the
updated error list, and the (branch, operation) invocations in order. -/
def run_branch (env : RepoEnv) (repo : RepositoryConfig) (operations : List String)
    (errors : List String) (bc : BranchConfig) :
    BranchReport × List String × List (String × String) :=
  let operation_results := operations.map (fun op =>
    execute_operation_on_branch (env.mkBranchOps repo) (env.opCall repo bc) bc.name op)
  let (branch_status, errors2) :=
    match env.getStatus repo bc.name with
    | .ok s => (s, errors)
    | .error e => ([], errors ++ ["Failed to get status for " ++ bc.name ++ ": " ++ e])
  (⟨bc.name, repo.name, operation_results, branch_status,
      operation_results.all (fun op => op.success)⟩,
    errors2,
    operations.map (fun op => (bc.name, op)))

/-- One iteration of the branch loop of `execute_workflow_on_repository`,
accumulating reports, `self.errors` and the invocation trace. -/
def wfr_step (env : RepoEnv) (repo : RepositoryConfig) (operations : List String)
    (acc : List BranchReport × List String × List (String × String))
    (bc : BranchConfig) :
    List BranchReport × List String × List (String × String) :=
  let (br, errs, tr) := run_branch env repo operations acc.2.1 bc
  (acc.1 ++ [br], errs, acc.2.2 ++ tr)

/-- `MultibranchOrchestrator.execute_workflow_on_repository` from
src/orchestrator.py.  The `.error` branch models the
`MultiBranchOperations` construction raising (before any branch work);
the error-list component threads `self.errors`. -/
def execute_workflow_on_repository (env : RepoEnv) (repo : RepositoryConfig)
    (operations : List String) (branches : Option (List String))
    (errors0 : List String) :
    Except String (List BranchReport) × List String × List (String × String) :=
  let target_branches := target_branches_for repo branches
  if target_branches = [] then (.ok [], errors0, [])
  else
    match env.mkMultiOps repo with
    | some e => (.error e, errors0, [])
    | none =>
      let folded := target_branches.foldl (wfr_step env repo operations) ([], errors0, [])
      (.ok folded.1, folded.2.1, folded.2.2)

/-- Per-repository collection step in `execute_workflow`: a normally
completed repository task extends the accumulated branch reports, a raised
one is downgraded to a run-level error string naming the repository. -/
def collect_repo (env : RepoEnv) (operations : List String)
    (branches : Option (List String))
    (acc : List BranchReport × List String) (repo : RepositoryConfig) :
    List BranchReport × List String :=
  match execute_workflow_on_repository env repo operations branches acc.2 with
  | (.ok branch_reports, errs, _) => (acc.1 ++ branch_reports, errs)
  | (.error e, errs, _) => (acc.1, errs ++ ["Repository " ++ repo.name ++ " failed: " ++ e])

/-- `MultibranchOrchestrator.execute_workflow` from src/orchestrator.py.
Both the thread-pool branch and the sequential branch run the same
per-repository try/collect step; the parallel branch's `as_completed`
collection order is modelled as submission order (the claims proved about
it are order-independent).  `errors0` is `self.errors` on entry; the
second component is `self.errors` at return time. -/
def execute_workflow (env : RepoEnv) (config : Config) (operations : List String)
    (repositories branches : Option (List String)) (errors0 : List String)
    (start_time end_time : ℚ) : Report × List String :=
  let target_repos := target_repos_for config repositories
  if target_repos = [] then
    let errors := errors0 ++ ["No repositories configured or specified"]
    (create_report [] start_time end_time (some errors), errors)
  else
    let folded :=
      if config.parallel_operations && target_repos.length > 1 then
        target_repos.foldl (collect_repo env operations branches) ([], errors0)
      else
        target_repos.foldl (collect_repo env operations branches) ([], errors0)
    (create_report folded.1 start_time end_time (some folded.2), folded.2)

/-- Per-branch body of the loop inside `custom_workflow`
(src/orchestrator.py lines 419-441): the user function and the status
query run inside one `try` whose handler appends an error string and skips
the report for that branch. -/
def custom_step (env : RepoEnv)
    (wf : RepositoryConfig → BranchConfig → Except String (List OperationResult))
    (repo : RepositoryConfig) (acc : List BranchReport × List String)
    (bc : BranchConfig) : List BranchReport × List String :=
  match wf repo bc with
  | .error e => (acc.1, acc.2 ++ ["Custom workflow failed for " ++ bc.name ++ ": " ++ e])
  | .ok operation_results =>
    match env.getStatus repo bc.name with
    | .error e =>
      (acc.1, acc.2 ++ ["Custom workflow failed for " ++ bc.name ++ ": " ++ e])
    | .ok branch_status =>
      (acc.1 ++ [⟨bc.name, repo.name, operation_results, branch_status,
        operation_results.all (fun op => op.success)⟩], acc.2)

/-- Per-repository body of `MultibranchOrchestrator.custom_workflow`
(src/orchestrator.py lines 407-441): branch filtering, then the
`BranchOperations` construction (outside any `try`, so its exception
escapes the whole call), then the per-branch loop. -/
def custom_workflow_repo (env : RepoEnv)
    (wf : RepositoryConfig → BranchConfig → Except String (List OperationResult))
    (branches : Option (List String)) (repo : RepositoryConfig)
    (state : List BranchReport × List String) :
    Except String (List BranchReport × List String) :=
  let target_branches := target_branches_for repo branches
  match env.mkBranchOps repo with
  | some e => .error e
  | none => .ok (target_branches.foldl (custom_step env wf repo) state)

/-- The repository loop of `custom_workflow`. -/
def custom_workflow_go (env : RepoEnv)
    (wf : RepositoryConfig → BranchConfig → Except String (List OperationResult))
    (branches : Option (List String)) :
    List RepositoryConfig → List BranchReport × List String →
    Except String (List BranchReport × List String)
  | [], state => .ok state
  | repo :: rest, state =>
    match custom_workflow_repo env wf branches repo state with
    | .error e => .error e
    | .ok state2 => custom_workflow_go env wf branches rest state2

/-- `MultibranchOrchestrator.custom_workflow` from src/orchestrator.py.
Returns the report together with `self.errors` at return time; `.error`
is an escaping `BranchOperations` construction exception. -/
def custom_workflow (env : RepoEnv)
    (wf : RepositoryConfig → BranchConfig → Except String (List OperationResult))
    (config : Config) (repositories branches : Option (List String))
    (errors0 : List String) (start_time end_time : ℚ) :
    Except String (Report × List String) :=
  let target_repos := target_repos_for config repositories
  match custom_workflow_go env wf branches target_repos ([], errors0) with
  | .error e => .error e
  | .ok state =>
    .ok (create_report state.1 start_time end_time (some state.2), state.2)

/-! ## Derived observations used in theorem statements -/

/-- The invocation trace one branch contributes: its requested operations
in caller order. -/
def branch_trace (operations : List String) (bc : BranchConfig) :
    List (String × String) :=
  operations.map (fun op => (bc.name, op))

/-- The error strings a status query for one branch appends to
`self.errors`. -/
def status_errors (env : RepoEnv) (repo : RepositoryConfig) (bc : BranchConfig) :
    List String :=
  match env.getStatus repo bc.name with
  | .ok _ => []
  | .error e => ["Failed to get status for " ++ bc.name ++ ": " ++ e]

/-- The branch reports one repository task produces when its
`MultiBranchOperations` construction does not raise. -/
def repo_reports (env : RepoEnv) (repo : RepositoryConfig)
    (operations : List String) (branches : Option (List String)) :
    List BranchReport :=
  (target_branches_for repo branches).map
    (fun bc => (run_branch env repo operations [] bc).1)

/-! ## Concrete fixtures for witnesses and counterexamples -/

/-- A small external-world oracle: one local branch `main`, currently
checked out. -/
def switch_probe_git : GitExec :=
  ⟨fun args =>
    if args = ["branch", "-vv"] then ⟨true, "* main 1234 first commit", "", 0⟩
    else if args = ["rev-parse", "--abbrev-ref", "HEAD"] then ⟨true, "main", "", 0⟩
    else ⟨true, "", "", 0⟩⟩

/-- Three configured repositories for the isolation scenario. -/
def repoAlpha : RepositoryConfig :=
  ⟨"/tmp/alpha", "alpha", [⟨"main", "origin", true, "merge", false⟩], "origin"⟩

def repoBeta : RepositoryConfig :=
  ⟨"/tmp/beta", "beta", [⟨"main", "origin", true, "merge", false⟩], "origin"⟩

def repoGamma : RepositoryConfig :=
  ⟨"/tmp/gamma", "gamma", [⟨"dev", "origin", true, "merge", false⟩], "origin"⟩

def fixtureConfig : Config := ⟨[repoAlpha, repoBeta, repoGamma], true, 4, 3, 2⟩

/-- An orchestration environment in which every branch operation succeeds
but the repository task for `beta` raises on construction. -/
def fixtureEnv : RepoEnv :=
  ⟨fun _ => none,
   fun _ bc op => .ok ⟨true, bc.name, op, "ok", none⟩,
   fun r => if r.name = "beta" then some "boom" else none,
   fun _ _ => .ok []⟩

/-- A configuration with a single one-branch repository, for small
witnesses. -/
def soloConfig : Config := ⟨[repoAlpha], true, 4, 3, 2⟩

/-- An environment whose operations all succeed and nothing raises. -/
def calmEnv : RepoEnv :=
  ⟨fun _ => none,
   fun _ bc op => .ok ⟨true, bc.name, op, "ok", none⟩,
   fun _ => none,
   fun _ _ => .ok []⟩

/-! ## Workflow calls as instance-state transitions

`self.errors` (initialised once in `MultibranchOrchestrator.__init__`,
orchestrator.py line 57, and never cleared) is the only instance state
the workflow entry points read and write.  A call to either entry point
is therefore a transition on that error list; `WorkflowCall` packs
everything about one invocation except the threaded list. -/

/-- One workflow entry-point invocation on an orchestrator instance:
either `execute_workflow` (which `sync_all_branches` and
`fetch_all_branches` also reduce to) or `custom_workflow`. -/
inductive WorkflowCall where
  | run (env : RepoEnv) (operations : List String)
      (repositories branches : Option (List String)) (st et : ℚ)
  | custom (env : RepoEnv)
      (wf : RepositoryConfig → BranchConfig → Except String (List OperationResult))
      (repositories branches : Option (List String)) (st et : ℚ)

/-- Execute one workflow call against the instance's current
`self.errors`, returning the report together with the updated list.
`none` is a `custom_workflow` call whose escaping exception means no
report is returned for it. -/
def WorkflowCall.exec (cfg : Config) (errors0 : List String) :
    WorkflowCall → Option (Report × List String)
  | .run env operations repositories branches st et =>
    some (execute_workflow env cfg operations repositories branches errors0 st et)
  | .custom env wf repositories branches st et =>
    match custom_workflow env wf cfg repositories branches errors0 st et with
    | .ok res => some res
    | .error _ => none

/-- Thread `self.errors` through a sequence of normally completing
workflow calls on the same instance. -/
def execChain (cfg : Config) : List WorkflowCall → List String → Option (List String)
  | [], errs => some errs
  | c :: rest, errs =>
    match c.exec cfg errs with
    | some (_, errs2) => execChain cfg rest errs2
    | none => none

/-! ## Lemmas about the retry loop -/

/-- Shifting the backoff schedule by one doubling step. -/
theorem backoff_schedule_shift (d b : ℚ) (r : Nat) :
    d :: (List.range r).map (fun i => d * b * b ^ i) =
      (List.range (r + 1)).map (fun i => d * b ^ i) := by
  rw [List.range_succ_eq_map, List.map_cons, List.map_map]
  have hfun : ((fun i => d * b ^ i) ∘ Nat.succ) = (fun i => d * b * b ^ i) := by
    funext i
    simp only [Function.comp_apply, pow_succ]
    ring
  rw [hfun]
  simp

/-- Behaviour of the retry loop over a function that keeps returning
failed `CommandResult`s: every remaining attempt is consumed and the last
result is returned, sleeping the exponential schedule in between. -/
theorem retryGo_all_fail (f : Nat → CommandResult)
    (hf : ∀ i, (f i).success = false) (b : ℚ) :
    ∀ (r a : Nat) (d : ℚ) (sleeps : List ℚ),
      retryGo (fun i => FuncStep.cmd (f i)) b a (r + 1) d sleeps =
        ⟨RetryResult.cmd (f (a + r)), a + r,
          sleeps ++ (List.range r).map (fun i => d * b ^ i)⟩ := by
  intro r
  induction r with
  | zero =>
    intro a d sleeps
    simp [retryGo, hf a]
  | succ r ih =>
    intro a d sleeps
    have step : retryGo (fun i => FuncStep.cmd (f i)) b a (r + 1 + 1) d sleeps =
        retryGo (fun i => FuncStep.cmd (f i)) b (a + 1) (r + 1) (d * b) (sleeps ++ [d]) := by
      simp [retryGo, hf a]
    rw [step, ih (a + 1) (d * b) (sleeps ++ [d])]
    have harg : a + 1 + r = a + (r + 1) := by omega
    rw [harg, List.append_assoc, List.singleton_append, backoff_schedule_shift]

/-- Behaviour of the retry loop over a function that raises on every
invocation: every remaining attempt is consumed and the last exception is
re-raised. -/
theorem retryGo_all_exn (e : Nat → String) (b : ℚ) :
    ∀ (r a : Nat) (d : ℚ) (sleeps : List ℚ),
      retryGo (fun i => FuncStep.exn (e i)) b a (r + 1) d sleeps =
        ⟨RetryResult.raised (e (a + r)), a + r,
          sleeps ++ (List.range r).map (fun i => d * b ^ i)⟩ := by
  intro r
  induction r with
  | zero =>
    intro a d sleeps
    simp [retryGo]
  | succ r ih =>
    intro a d sleeps
    have step : retryGo (fun i => FuncStep.exn (e i)) b a (r + 1 + 1) d sleeps =
        retryGo (fun i => FuncStep.exn (e i)) b (a + 1) (r + 1) (d * b) (sleeps ++ [d]) := by
      simp [retryGo]
    rw [step, ih (a + 1) (d * b) (sleeps ++ [d])]
    have harg : a + 1 + r = a + (r + 1) := by omega
    rw [harg, List.append_assoc, List.singleton_append, backoff_schedule_shift]

/-- Behaviour of the retry loop over a function that fails its first `j`
invocations (counting from attempt `a`) and succeeds on the next one. -/
theorem retryGo_fail_until (f : Nat → CommandResult) (b : ℚ) :
    ∀ (j a rem : Nat) (d : ℚ) (sleeps : List ℚ),
      j + 1 ≤ rem →
      (∀ i, a ≤ i → i < a + j → (f i).success = false) →
      (f (a + j)).success = true →
      retryGo (fun i => FuncStep.cmd (f i)) b a rem d sleeps =
        ⟨RetryResult.cmd (f (a + j)), a + j,
          sleeps ++ (List.range j).map (fun i => d * b ^ i)⟩ := by
  intro j
  induction j with
  | zero =>
    intro a rem d sleeps hrem _ hsucc
    obtain ⟨r, rfl⟩ : ∃ r, rem = r + 1 := ⟨rem - 1, by omega⟩
    simp only [Nat.add_zero] at hsucc
    simp [retryGo, hsucc]
  | succ j ih =>
    intro a rem d sleeps hrem hfail hsucc
    obtain ⟨r, rfl⟩ : ∃ r, rem = r + 1 := ⟨rem - 1, by omega⟩
    have hfa : (f a).success = false := hfail a le_rfl (by omega)
    have hr : r ≠ 0 := by omega
    have step : retryGo (fun i => FuncStep.cmd (f i)) b a (r + 1) d sleeps =
        retryGo (fun i => FuncStep.cmd (f i)) b (a + 1) r (d * b) (sleeps ++ [d]) := by
      simp [retryGo, hfa, hr]
    have harg : a + 1 + j = a + (j + 1) := by omega
    rw [step, ih (a + 1) r (d * b) (sleeps ++ [d]) (by omega)
      (fun i h1 h2 => hfail i (by omega) (by omega))
      (by rw [harg]; exact hsucc)]
    rw [harg, List.append_assoc, List.singleton_append, backoff_schedule_shift]

/-! ## Claims C1-C3 -/

/-- C1: an action whose every invocation returns a failed `CommandResult`
is invoked exactly `N` times by `retry_with_backoff` with
`max_attempts = N ≥ 1`; the call returns the final failing result (the
outcome is `.cmd`, so no exception is raised) after sleeping the
exponential backoff schedule. -/
theorem retry_exhaustion (f : Nat → CommandResult)
    (hf : ∀ i, (f i).success = false) (N : Nat) (hN : 1 ≤ N) (d b : ℚ) :
    retry_with_backoff (fun i => FuncStep.cmd (f i)) N d b =
      ⟨RetryResult.cmd (f N), N, (List.range (N - 1)).map (fun i => d * b ^ i)⟩ := by
  obtain ⟨r, rfl⟩ : ∃ r, N = r + 1 := ⟨N - 1, by omega⟩
  rw [retry_with_backoff, retryGo_all_fail f hf b r 1 d []]
  have h1 : 1 + r = r + 1 := by omega
  rw [h1]
  simp

/-- Witness for C1 at a concrete always-failing action with three
attempts. -/
theorem retry_exhaustion_witness :
    retry_with_backoff (fun _ => FuncStep.cmd ⟨false, "", "network down", 1⟩) 3 2 2 =
      ⟨RetryResult.cmd ⟨false, "", "network down", 1⟩, 3, [2, 4]⟩ := by
  have h := retry_exhaustion (fun _ => ⟨false, "", "network down", 1⟩)
    (fun _ => rfl) 3 (by norm_num) 2 2
  rw [h]
  norm_num [List.range_succ]

/-- C2: an action that returns a failed `CommandResult` on invocations
`1..k-1` and a successful one on invocation `k` is invoked exactly `k`
times by `retry_with_backoff` with `max_attempts = N ≥ k`, the success
result is returned, and the delays slept before the retries are exactly
`initial_delay * base^i` for `i = 0, 1, ..., k-2` in order (so
`initial_delay` before the second attempt, multiplied by the base — by
default doubled — before each later one). -/
theorem retry_success_after_k (f : Nat → CommandResult) (k N : Nat)
    (hk : 1 ≤ k) (hkN : k ≤ N)
    (hfail : ∀ i, 1 ≤ i → i < k → (f i).success = false)
    (hsucc : (f k).success = true) (d b : ℚ) :
    retry_with_backoff (fun i => FuncStep.cmd (f i)) N d b =
      ⟨RetryResult.cmd (f k), k, (List.range (k - 1)).map (fun i => d * b ^ i)⟩ := by
  have hk1 : 1 + (k - 1) = k := by omega
  have h := retryGo_fail_until f b (k - 1) 1 N d [] (by omega)
    (fun i h1 h2 => hfail i h1 (by omega))
    (by rw [hk1]; exact hsucc)
  rw [retry_with_backoff, h, hk1]
  simp

/-- Witness for C2: fails twice, succeeds on the third invocation, with
five configured attempts; invoked three times, slept 2 then 4 seconds. -/
theorem retry_success_after_k_witness :
    retry_with_backoff
        (fun i => FuncStep.cmd ⟨i == 3, "", if i == 3 then "" else "refused", if i == 3 then 0 else 1⟩)
        5 2 2 =
      ⟨RetryResult.cmd ⟨true, "", "", 0⟩, 3, [2, 4]⟩ := by
  have h := retry_success_after_k
    (fun i => ⟨i == 3, "", if i == 3 then "" else "refused", if i == 3 then 0 else 1⟩)
    3 5 (by norm_num) (by norm_num)
    (by decide)
    (by norm_num) 2 2
  rw [h]
  norm_num [List.range_succ]

/-- C3 counterexample: the claim says an action that raises is never
retried and its exception propagates on the first invocation.  With
`max_attempts = 3` and an action that raises on every invocation,
`retry_with_backoff` invokes the action three times (sleeping in between)
before re-raising, so the number of invocations is not one. -/
theorem no_retry_on_exceptions_counterexample :
    (retry_with_backoff (fun _ => FuncStep.exn "boom") 3 2 2).result =
        RetryResult.raised "boom" ∧
    (retry_with_backoff (fun _ => FuncStep.exn "boom") 3 2 2).invocations = 3 ∧
    (3 : Nat) ≠ 1 := by
  refine ⟨rfl, rfl, by norm_num⟩

/-- C3 (amended): `retry_with_backoff` retries exceptions exactly like
failed results: an action that raises on every invocation is invoked
`max_attempts = N ≥ 1` times, sleeping the exponential backoff schedule in
between, and only then does the final exception propagate to the caller;
the branch-operations layer (`execute_operation_on_branch`) catches a
propagated exception and converts it into a failed `OperationResult`
carrying the exception text. -/
theorem exceptions_retried_then_converted (e : Nat → String) (N : Nat)
    (hN : 1 ≤ N) (d b : ℚ) (bn op err : String)
    (call : String → Except String OperationResult)
    (hop : op ∈ operations_map_keys) (hcall : call op = .error err) :
    retry_with_backoff (fun i => FuncStep.exn (e i)) N d b =
      ⟨RetryResult.raised (e N), N, (List.range (N - 1)).map (fun i => d * b ^ i)⟩ ∧
    execute_operation_on_branch none call bn op =
      ⟨false, bn, op, "Operation failed with exception", some err⟩ := by
  constructor
  · obtain ⟨r, rfl⟩ : ∃ r, N = r + 1 := ⟨N - 1, by omega⟩
    rw [retry_with_backoff, retryGo_all_exn e b r 1 d []]
    have h1 : 1 + r = r + 1 := by omega
    rw [h1]
    simp
  · simp [execute_operation_on_branch, hop, hcall]

/-- Witness for the amended C3 at a concrete always-raising action and a
concrete raising fetch call. -/
theorem exceptions_retried_then_converted_witness :
    retry_with_backoff (fun _ => FuncStep.exn "boom") 3 2 2 =
      ⟨RetryResult.raised "boom", 3, [2, 4]⟩ ∧
    execute_operation_on_branch none (fun _ => .error "boom") "main" "fetch" =
      ⟨false, "main", "fetch", "Operation failed with exception", some "boom"⟩ := by
  have h := exceptions_retried_then_converted (fun _ => "boom") 3 (by norm_num) 2 2
    "main" "fetch" "boom" (fun _ => .error "boom") (by decide) rfl
  refine ⟨?_, h.2⟩
  rw [h.1]
  norm_num [List.range_succ]

/-! ## Claims C9 and C4 -/

/-- C9: `validate_branch_name` accepts "main" and "feature/x", and
rejects every name that is empty, contains one of the forbidden
characters or the two-character sequence ".." (Python substring
semantics, captured by `invalid_chars`/`pyContains`), starts or ends with
a slash, or ends with ".lock"; in particular "bad..name", "/leading" and
"name.lock" are rejected. -/
theorem validate_branch_name_spec :
    validate_branch_name "main" = true ∧
    validate_branch_name "feature/x" = true ∧
    (∀ s : String,
      (s = "" ∨ (∃ pat ∈ invalid_chars, pyContains s pat = true) ∨
        pyStartsWith s "/" = true ∨ pyEndsWith s "/" = true ∨
        pyEndsWith s ".lock" = true) →
      validate_branch_name s = false) ∧
    validate_branch_name "bad..name" = false ∧
    validate_branch_name "/leading" = false ∧
    validate_branch_name "name.lock" = false := by
  refine ⟨by decide, by decide, ?_, by decide, by decide, by decide⟩
  intro s h
  unfold validate_branch_name
  split_ifs with h1 h2 h3 h4
  · rfl
  · rfl
  · rfl
  · rfl
  · exfalso
    rcases h with h | ⟨pat, hmem, hpat⟩ | h | h | h
    · exact h1 h
    · exact h2 (List.any_eq_true.mpr ⟨pat, hmem, hpat⟩)
    · exact h3 (by simp [h])
    · exact h3 (by simp [h])
    · exact h4 h

/-- Witness for C9 applied at the concrete rejected name "bad..name". -/
theorem validate_branch_name_spec_witness :
    validate_branch_name "bad..name" = false :=
  validate_branch_name_spec.2.2.1 "bad..name"
    (Or.inr (Or.inl ⟨"..", by decide, by decide⟩))

/-- C4: for every report built by `create_report`, the summary's
`total_operations` is the sum of the per-branch operation counts,
`failed_operations` is `total_operations - successful_operations`, and
`success_rate` is `0` when `total_operations = 0` and
`successful / total * 100` otherwise. -/
theorem create_report_summary_arithmetic (brs : List BranchReport)
    (s e : ℚ) (errors : Option (List String)) :
    (create_report brs s e errors).summary.total_operations =
        (brs.map (fun br => br.operations.length)).sum ∧
    (create_report brs s e errors).summary.failed_operations =
        (create_report brs s e errors).summary.total_operations -
          (create_report brs s e errors).summary.successful_operations ∧
    (create_report brs s e errors).summary.success_rate =
        (if (create_report brs s e errors).summary.total_operations = 0 then 0
         else ((create_report brs s e errors).summary.successful_operations : ℚ) /
            ((create_report brs s e errors).summary.total_operations : ℚ) * 100) :=
  ⟨rfl, rfl, rfl⟩

/-! ## Claim C8 -/

/-- The first external invocation `switch_branch` performs is always the
branch listing (`git branch -vv`) issued by `list_branches`. -/
theorem list_branches_log_head (g : GitExec) :
    (list_branches g false).2.head? = some ["git", "branch", "-vv"] := by
  unfold list_branches get_current_branch
  by_cases h : (g.run ["branch", "-vv"]).success <;>
    simp [execute_git_command, h]

/-- C8 counterexample: for the invalid name "bad..name" (and an external
world with one branch `main`), `switch_branch` performs two external
invocations — the branch listing and the HEAD query — before returning,
so the claim that a name failing validation is rejected by `switch_branch`
without invoking the external tool is false. -/
theorem validation_before_invocation_counterexample :
    validate_branch_name "bad..name" = false ∧
    (switch_branch switch_probe_git "bad..name" false).2 =
      [["git", "branch", "-vv"], ["git", "rev-parse", "--abbrev-ref", "HEAD"]] ∧
    (switch_branch switch_probe_git "bad..name" false).2 ≠ [] := by
  exact ⟨by decide, by decide, by decide⟩

/-- C8 (amended): `create_branch` validates the target name first and, on
an invalid name, returns a failed `OperationResult` without any external
invocation; `switch_branch`, however, performs no name validation — its
first action is always the external branch-listing invocation, and when
the name (in particular an invalid one) is absent from the listing and
`create_if_missing` is false it returns a failed "Branch does not exist"
outcome after that read-only listing. -/
theorem validation_before_invocation_amended :
    (∀ (g : GitExec) (name : String) (from_branch : Option String),
      validate_branch_name name = false →
      create_branch g name from_branch =
        (.ok ⟨false, name, "create", "Invalid branch name",
          some "Branch name contains invalid characters"⟩, [])) ∧
    (∀ (g : GitExec) (name : String) (cim : Bool),
      (switch_branch g name cim).2.head? = some ["git", "branch", "-vv"]) ∧
    (∀ (g : GitExec) (name : String) (bs : List BranchInfo),
      (list_branches g false).1 = .ok bs →
      (∀ b ∈ bs, b.name ≠ name) →
      (switch_branch g name false).1 =
        .ok ⟨false, name, "switch", "Branch does not exist",
          some ("Branch " ++ sq ++ name ++ sq ++ " not found")⟩) := by
  refine ⟨?_, ?_, ?_⟩
  · intro g name from_branch h
    simp [create_branch, h]
  · intro g name cim
    have hhead := list_branches_log_head g
    unfold switch_branch
    rcases hlb : list_branches g false with ⟨E, log1⟩
    rw [hlb] at hhead
    cases E with
    | error e => simpa using hhead
    | ok branches =>
      simp only []
      split
      · simpa using hhead
      · simp only [List.head?_append]
        rw [hhead]
        rfl
  · intro g name bs hok hnone
    unfold switch_branch
    rcases hlb : list_branches g false with ⟨E, log1⟩
    rw [hlb] at hok
    simp only at hok
    subst hok
    have hany : bs.any (fun b => b.name = name) = false := by
      rw [List.any_eq_false]
      intro b hb
      simpa using hnone b hb
    simp [hany]

/-- Witness for the amended C8: the invalid name "bad..name" against the
concrete one-branch world. -/
theorem validation_before_invocation_amended_witness :
    create_branch switch_probe_git "bad..name" none =
      (.ok ⟨false, "bad..name", "create", "Invalid branch name",
        some "Branch name contains invalid characters"⟩, []) ∧
    (switch_branch switch_probe_git "bad..name" false).2.head? =
      some ["git", "branch", "-vv"] ∧
    (switch_branch switch_probe_git "bad..name" false).1 =
      .ok ⟨false, "bad..name", "switch", "Branch does not exist",
        some ("Branch " ++ sq ++ "bad..name" ++ sq ++ " not found")⟩ :=
  ⟨validation_before_invocation_amended.1 switch_probe_git "bad..name" none (by decide),
   validation_before_invocation_amended.2.1 switch_probe_git "bad..name" false,
   validation_before_invocation_amended.2.2 switch_probe_git "bad..name"
     [⟨"main", true, none, some "1234", none, 0, 0⟩] (by rfl)
     (by intro b hb; simp at hb; subst hb; decide)⟩

/-! ## Lemmas about the orchestrator workflow -/

/-- The branch loop body depends on the incoming error list only by
appending to it; report and trace are independent of it. -/
theorem run_branch_decomp (env : RepoEnv) (repo : RepositoryConfig)
    (operations : List String) (errors : List String) (bc : BranchConfig) :
    run_branch env repo operations errors bc =
      ((run_branch env repo operations [] bc).1,
        errors ++ status_errors env repo bc, branch_trace operations bc) := by
  unfold run_branch status_errors branch_trace
  cases h : env.getStatus repo bc.name <;> simp [h]

/-- Closed form of the branch loop of `execute_workflow_on_repository`. -/
theorem wfr_fold (env : RepoEnv) (repo : RepositoryConfig)
    (operations : List String) :
    ∀ (targets : List BranchConfig) (rs : List BranchReport)
      (errs : List String) (tr : List (String × String)),
      targets.foldl (wfr_step env repo operations) (rs, errs, tr) =
        (rs ++ targets.map (fun bc => (run_branch env repo operations [] bc).1),
         errs ++ targets.flatMap (status_errors env repo),
         tr ++ targets.flatMap (branch_trace operations)) := by
  intro targets
  induction targets with
  | nil => intro rs errs tr; simp
  | cons bc rest ih =>
    intro rs errs tr
    have hstep : wfr_step env repo operations (rs, errs, tr) bc =
        (rs ++ [(run_branch env repo operations [] bc).1],
          errs ++ status_errors env repo bc, tr ++ branch_trace operations bc) := by
      unfold wfr_step
      rw [run_branch_decomp]
    rw [List.foldl_cons, hstep, ih]
    simp

/-- Closed form of `execute_workflow_on_repository` when the
`MultiBranchOperations` construction does not raise. -/
theorem execute_workflow_on_repository_ok (env : RepoEnv)
    (repo : RepositoryConfig) (operations : List String)
    (branches : Option (List String)) (errors0 : List String)
    (h : env.mkMultiOps repo = none) :
    execute_workflow_on_repository env repo operations branches errors0 =
      (.ok (repo_reports env repo operations branches),
       errors0 ++ (target_branches_for repo branches).flatMap (status_errors env repo),
       (target_branches_for repo branches).flatMap (branch_trace operations)) := by
  unfold execute_workflow_on_repository repo_reports
  by_cases htb : target_branches_for repo branches = []
  · simp [htb]
  · simp only [htb, if_false, h, wfr_fold]
    simp

/-- `execute_workflow_on_repository` returns empty-handed — before the
`MultiBranchOperations` construction — when no configured branch matches
the filter. -/
theorem execute_workflow_on_repository_empty (env : RepoEnv)
    (repo : RepositoryConfig) (operations : List String)
    (branches : Option (List String)) (errors0 : List String)
    (htb : target_branches_for repo branches = []) :
    execute_workflow_on_repository env repo operations branches errors0 =
      (.ok [], errors0, []) := by
  unfold execute_workflow_on_repository
  rw [htb]
  simp

/-- Closed form of `execute_workflow_on_repository` when the
`MultiBranchOperations` construction raises: no branch work happens and
the error list is untouched. -/
theorem execute_workflow_on_repository_error (env : RepoEnv)
    (repo : RepositoryConfig) (operations : List String)
    (branches : Option (List String)) (errors0 : List String) (e : String)
    (htb : target_branches_for repo branches ≠ [])
    (h : env.mkMultiOps repo = some e) :
    execute_workflow_on_repository env repo operations branches errors0 =
      (.error e, errors0, []) := by
  unfold execute_workflow_on_repository
  simp [htb, h]

/-- Every report a repository task produces records `success` as the
conjunction of its operation results. -/
theorem repo_reports_success (env : RepoEnv) (repo : RepositoryConfig)
    (operations : List String) (branches : Option (List String)) :
    ∀ br ∈ repo_reports env repo operations branches,
      br.success = br.operations.all (fun op => op.success) := by
  intro br hbr
  rw [repo_reports, List.mem_map] at hbr
  obtain ⟨bc, _, rfl⟩ := hbr
  unfold run_branch
  cases h : env.getStatus repo bc.name <;> simp [h]

/-- Every report a repository task produces lists the results of the
requested operations in caller order, one result per operation. -/
theorem repo_reports_operations (env : RepoEnv) (repo : RepositoryConfig)
    (operations : List String) (bc : BranchConfig) :
    ((run_branch env repo operations [] bc).1).operations =
      operations.map (fun op =>
        execute_operation_on_branch (env.mkBranchOps repo) (env.opCall repo bc)
          bc.name op) := by
  unfold run_branch
  cases h : env.getStatus repo bc.name <;> simp [h]

/-- The per-branch step of `custom_workflow` preserves the invariant that
every accumulated report's `success` is the conjunction of its operation
results. -/
theorem custom_step_success_inv (env : RepoEnv)
    (wf : RepositoryConfig → BranchConfig → Except String (List OperationResult))
    (repo : RepositoryConfig) (acc : List BranchReport × List String)
    (bc : BranchConfig)
    (hinv : ∀ br ∈ acc.1, br.success = br.operations.all (fun op => op.success)) :
    ∀ br ∈ (custom_step env wf repo acc bc).1,
      br.success = br.operations.all (fun op => op.success) := by
  intro br hbr
  unfold custom_step at hbr
  cases hwf : wf repo bc with
  | error e =>
    rw [hwf] at hbr
    exact hinv br hbr
  | ok operation_results =>
    rw [hwf] at hbr
    cases hst : env.getStatus repo bc.name with
    | error e =>
      rw [hst] at hbr
      exact hinv br hbr
    | ok branch_status =>
      rw [hst] at hbr
      simp only [List.mem_append, List.mem_singleton] at hbr
      rcases hbr with hbr | rfl
      · exact hinv br hbr
      · rfl

/-- The branch loop of `custom_workflow` preserves the success-flag
invariant. -/
theorem custom_fold_success_inv (env : RepoEnv)
    (wf : RepositoryConfig → BranchConfig → Except String (List OperationResult))
    (repo : RepositoryConfig) :
    ∀ (targets : List BranchConfig) (acc : List BranchReport × List String),
      (∀ br ∈ acc.1, br.success = br.operations.all (fun op => op.success)) →
      ∀ br ∈ (targets.foldl (custom_step env wf repo) acc).1,
        br.success = br.operations.all (fun op => op.success) := by
  intro targets
  induction targets with
  | nil => intro acc hinv; simpa using hinv
  | cons bc rest ih =>
    intro acc hinv
    rw [List.foldl_cons]
    exact ih _ (custom_step_success_inv env wf repo acc bc hinv)

/-- The repository loop of `custom_workflow` preserves the success-flag
invariant on normal completion. -/
theorem custom_go_success_inv (env : RepoEnv)
    (wf : RepositoryConfig → BranchConfig → Except String (List OperationResult))
    (branches : Option (List String)) :
    ∀ (repos : List RepositoryConfig) (state state2 : List BranchReport × List String),
      custom_workflow_go env wf branches repos state = .ok state2 →
      (∀ br ∈ state.1, br.success = br.operations.all (fun op => op.success)) →
      ∀ br ∈ state2.1, br.success = br.operations.all (fun op => op.success) := by
  intro repos
  induction repos with
  | nil =>
    intro state state2 hgo hinv
    unfold custom_workflow_go at hgo
    cases hgo
    exact hinv
  | cons repo rest ih =>
    intro state state2 hgo hinv
    unfold custom_workflow_go at hgo
    cases hrepo : custom_workflow_repo env wf branches repo state with
    | error e => rw [hrepo] at hgo; cases hgo
    | ok state1 =>
      rw [hrepo] at hgo
      refine ih state1 state2 hgo ?_
      unfold custom_workflow_repo at hrepo
      cases hmk : env.mkBranchOps repo with
      | some e => rw [hmk] at hrepo; cases hrepo
      | none =>
        rw [hmk] at hrepo
        simp only [Except.ok.injEq] at hrepo
        subst hrepo
        exact custom_fold_success_inv env wf repo _ state hinv

/-! ## Claims C5 and C7 -/

/-- C5: every branch outcome set the workflow builds — whether by
`execute_workflow_on_repository` or by `custom_workflow` — has
`success = true` exactly when all of its recorded operation outcomes
succeeded; a branch with an empty operations list is vacuously
successful. -/
theorem branch_success_flag (env : RepoEnv)
    (wf : RepositoryConfig → BranchConfig → Except String (List OperationResult))
    (config : Config) :
    (∀ (repo : RepositoryConfig) (operations : List String)
        (branches : Option (List String)) (errors0 : List String)
        (reports : List BranchReport) (errs : List String)
        (tr : List (String × String)),
      execute_workflow_on_repository env repo operations branches errors0 =
        (.ok reports, errs, tr) →
      ∀ br ∈ reports,
        (br.success = true ↔ ∀ op ∈ br.operations, op.success = true)) ∧
    (∀ (repositories branches : Option (List String)) (errors0 : List String)
        (st et : ℚ) (rep : Report) (errs : List String),
      custom_workflow env wf config repositories branches errors0 st et =
        .ok (rep, errs) →
      ∀ br ∈ rep.branch_reports,
        (br.success = true ↔ ∀ op ∈ br.operations, op.success = true)) := by
  constructor
  · intro repo operations branches errors0 reports errs tr heq br hbr
    have hall : br.success = br.operations.all (fun op => op.success) := by
      cases hmk : env.mkMultiOps repo with
      | none =>
        rw [execute_workflow_on_repository_ok env repo operations branches errors0 hmk]
          at heq
        simp only [Prod.mk.injEq, Except.ok.injEq] at heq
        rw [← heq.1] at hbr
        exact repo_reports_success env repo operations branches br hbr
      | some e =>
        by_cases htb : target_branches_for repo branches = []
        · rw [execute_workflow_on_repository_empty env repo operations branches
            errors0 htb] at heq
          simp only [Prod.mk.injEq, Except.ok.injEq] at heq
          rw [← heq.1] at hbr
          simp at hbr
        · rw [execute_workflow_on_repository_error env repo operations branches
            errors0 e htb hmk] at heq
          simp at heq
    rw [hall]
    exact List.all_eq_true
  · intro repositories branches errors0 st et rep errs heq br hbr
    simp only [custom_workflow] at heq
    split at heq
    · cases heq
    · next state hgo =>
      simp only [Except.ok.injEq, Prod.mk.injEq] at heq
      have hrep : rep.branch_reports = state.1 := by rw [← heq.1]; rfl
      have hall := custom_go_success_inv env wf branches _ ([], errors0) state hgo
        (by simp) br (by rw [← hrep]; exact hbr)
      rw [hall]
      exact List.all_eq_true

/-- Witness for C5 at a concrete run: one repository, one branch, two
succeeding operations. -/
theorem branch_success_flag_witness :
    ∀ br ∈ repo_reports calmEnv repoAlpha ["fetch", "pull"] none,
      (br.success = true ↔ ∀ op ∈ br.operations, op.success = true) := by
  intro br hbr
  exact (branch_success_flag calmEnv (fun _ _ => .ok []) soloConfig).1 repoAlpha
    ["fetch", "pull"] none [] (repo_reports calmEnv repoAlpha ["fetch", "pull"] none)
    ((target_branches_for repoAlpha none).flatMap (status_errors calmEnv repoAlpha))
    ((target_branches_for repoAlpha none).flatMap (branch_trace ["fetch", "pull"]))
    (execute_workflow_on_repository_ok calmEnv repoAlpha ["fetch", "pull"] none [] rfl)
    br hbr

/-- C7: within one repository task, the recorded external invocation
trace is exactly the concatenation, branch by branch in configured order,
of that branch's requested operations in caller-specified order — so
operation N+1 of a branch runs only after operation N, and a failed
operation does not cut the sequence short: every report still carries one
outcome per requested operation, in order, as produced by
`execute_operation_on_branch`. -/
theorem within_branch_ordering (env : RepoEnv) (repo : RepositoryConfig)
    (operations : List String) (branches : Option (List String))
    (errors0 : List String) (h : env.mkMultiOps repo = none) :
    (execute_workflow_on_repository env repo operations branches errors0).2.2 =
      (target_branches_for repo branches).flatMap
        (fun bc => operations.map (fun op => (bc.name, op))) ∧
    (execute_workflow_on_repository env repo operations branches errors0).1 =
      .ok (repo_reports env repo operations branches) ∧
    ∀ bc ∈ target_branches_for repo branches,
      ((run_branch env repo operations [] bc).1).operations =
        operations.map (fun op =>
          execute_operation_on_branch (env.mkBranchOps repo) (env.opCall repo bc)
            bc.name op) := by
  rw [execute_workflow_on_repository_ok env repo operations branches errors0 h]
  exact ⟨rfl, rfl, fun bc _ => repo_reports_operations env repo operations bc⟩

/-- Witness for C7 at a concrete two-operation run on one branch. -/
theorem within_branch_ordering_witness :
    (execute_workflow_on_repository calmEnv repoAlpha ["fetch", "pull"] none []).2.2 =
      (target_branches_for repoAlpha none).flatMap
        (fun bc => ["fetch", "pull"].map (fun op => (bc.name, op))) :=
  (within_branch_ordering calmEnv repoAlpha ["fetch", "pull"] none [] rfl).1

/-! ## Lemmas about collection across repositories -/

/-- Collection step for a repository task that completes normally. -/
theorem collect_repo_ok (env : RepoEnv) (operations : List String)
    (branches : Option (List String)) (rs : List BranchReport)
    (errs : List String) (repo : RepositoryConfig)
    (h : env.mkMultiOps repo = none) :
    collect_repo env operations branches (rs, errs) repo =
      (rs ++ repo_reports env repo operations branches,
       errs ++ (target_branches_for repo branches).flatMap (status_errors env repo)) := by
  unfold collect_repo
  rw [execute_workflow_on_repository_ok env repo operations branches errs h]

/-- Collection step for a repository task that raises: the exception is
downgraded to one run-level error string naming the repository. -/
theorem collect_repo_error (env : RepoEnv) (operations : List String)
    (branches : Option (List String)) (rs : List BranchReport)
    (errs : List String) (repo : RepositoryConfig) (e : String)
    (htb : target_branches_for repo branches ≠ [])
    (h : env.mkMultiOps repo = some e) :
    collect_repo env operations branches (rs, errs) repo =
      (rs, errs ++ ["Repository " ++ repo.name ++ " failed: " ++ e]) := by
  unfold collect_repo
  rw [execute_workflow_on_repository_error env repo operations branches errs e htb h]

/-! ## Claim C6 -/

/-- C6: in a run over three repository targets in which the second
repository's task raises (here: its `MultiBranchOperations` construction)
while the first and third complete normally (their status queries do not
raise), `execute_workflow` still returns normally, its report carries the
branch outcomes of the first and third repositories in full, and its error
list is exactly one run-level error string naming the second repository. -/
theorem repository_failure_isolation (env : RepoEnv) (cfg : Config)
    (r1 r2 r3 : RepositoryConfig) (operations : List String)
    (branches : Option (List String)) (e : String) (st et : ℚ)
    (hrepos : cfg.repositories = [r1, r2, r3])
    (h1 : env.mkMultiOps r1 = none)
    (h2 : env.mkMultiOps r2 = some e)
    (h3 : env.mkMultiOps r3 = none)
    (h2b : target_branches_for r2 branches ≠ [])
    (hs1 : ∀ bc ∈ target_branches_for r1 branches, status_errors env r1 bc = [])
    (hs3 : ∀ bc ∈ target_branches_for r3 branches, status_errors env r3 bc = []) :
    (execute_workflow env cfg operations none branches [] st et).1.branch_reports =
        repo_reports env r1 operations branches ++
          repo_reports env r3 operations branches ∧
    (execute_workflow env cfg operations none branches [] st et).1.errors =
        ["Repository " ++ r2.name ++ " failed: " ++ e] := by
  have htr : target_repos_for cfg none = [r1, r2, r3] := by
    simp [target_repos_for, hrepos]
  have hflat1 : (target_branches_for r1 branches).flatMap (status_errors env r1) = [] := by
    simp only [List.flatMap_eq_nil_iff]
    exact hs1
  have hflat3 : (target_branches_for r3 branches).flatMap (status_errors env r3) = [] := by
    simp only [List.flatMap_eq_nil_iff]
    exact hs3
  have hfold : [r1, r2, r3].foldl (collect_repo env operations branches) ([], []) =
      (repo_reports env r1 operations branches ++
        repo_reports env r3 operations branches,
       ["Repository " ++ r2.name ++ " failed: " ++ e]) := by
    rw [List.foldl_cons, collect_repo_ok env operations branches [] [] r1 h1]
    simp only [List.nil_append, hflat1]
    rw [List.foldl_cons, collect_repo_error env operations branches _ _ r2 e h2b h2]
    simp only [List.nil_append]
    rw [List.foldl_cons, collect_repo_ok env operations branches _ _ r3 h3]
    simp only [hflat3, List.append_nil, List.foldl_nil]
  simp only [execute_workflow, htr]
  rw [if_neg (by simp), ite_self, hfold]
  exact ⟨rfl, rfl⟩

/-- Witness for C6: three one-branch repositories, the middle one
(`beta`) raising "boom". -/
theorem repository_failure_isolation_witness :
    (execute_workflow fixtureEnv fixtureConfig ["fetch"] none none [] 0 0).1.branch_reports =
        repo_reports fixtureEnv repoAlpha ["fetch"] none ++
          repo_reports fixtureEnv repoGamma ["fetch"] none ∧
    (execute_workflow fixtureEnv fixtureConfig ["fetch"] none none [] 0 0).1.errors =
        ["Repository " ++ repoBeta.name ++ " failed: " ++ "boom"] :=
  repository_failure_isolation fixtureEnv fixtureConfig repoAlpha repoBeta repoGamma
    ["fetch"] none "boom" 0 0 rfl rfl rfl rfl (by decide)
    (by intro bc hbc; rfl) (by intro bc hbc; rfl)

/-! ## Lemmas about error-list threading (the orchestrator only appends) -/

/-- A repository task never removes entries from `self.errors`. -/
theorem wfr_errors_subset (env : RepoEnv) (repo : RepositoryConfig)
    (operations : List String) (branches : Option (List String))
    (errors0 : List String) :
    errors0 ⊆ (execute_workflow_on_repository env repo operations branches errors0).2.1 := by
  by_cases htb : target_branches_for repo branches = []
  · rw [execute_workflow_on_repository_empty env repo operations branches errors0 htb]
    exact fun x hx => hx
  · cases hmk : env.mkMultiOps repo with
    | none =>
      rw [execute_workflow_on_repository_ok env repo operations branches errors0 hmk]
      exact List.subset_append_left _ _
    | some e =>
      rw [execute_workflow_on_repository_error env repo operations branches errors0
        e htb hmk]
      exact fun x hx => hx

/-- The per-repository collection step never removes entries from
`self.errors`. -/
theorem collect_repo_errors_subset (env : RepoEnv) (operations : List String)
    (branches : Option (List String)) (acc : List BranchReport × List String)
    (repo : RepositoryConfig) :
    acc.2 ⊆ (collect_repo env operations branches acc repo).2 := by
  unfold collect_repo
  have hsub := wfr_errors_subset env repo operations branches acc.2
  rcases hex : execute_workflow_on_repository env repo operations branches acc.2
    with ⟨E, errs, tr⟩
  rw [hex] at hsub
  cases E with
  | ok brs => exact hsub
  | error e => exact hsub.trans (List.subset_append_left _ _)

/-- The repository collection loop never removes entries from
`self.errors`. -/
theorem workflow_fold_errors_subset (env : RepoEnv) (operations : List String)
    (branches : Option (List String)) :
    ∀ (repos : List RepositoryConfig) (acc : List BranchReport × List String),
      acc.2 ⊆ (repos.foldl (collect_repo env operations branches) acc).2 := by
  intro repos
  induction repos with
  | nil => intro acc; exact fun x hx => hx
  | cons repo rest ih =>
    intro acc
    rw [List.foldl_cons]
    exact (collect_repo_errors_subset env operations branches acc repo).trans
      (ih (collect_repo env operations branches acc repo))

/-- The report `execute_workflow` returns carries exactly the
`self.errors` list at return time. -/
theorem execute_workflow_report_errors (env : RepoEnv) (cfg : Config)
    (operations : List String) (repositories branches : Option (List String))
    (errors0 : List String) (st et : ℚ) :
    (execute_workflow env cfg operations repositories branches errors0 st et).1.errors =
      (execute_workflow env cfg operations repositories branches errors0 st et).2 := by
  simp only [execute_workflow]
  by_cases h : target_repos_for cfg repositories = [] <;>
    simp [h, create_report]

/-- `execute_workflow` never removes entries from `self.errors`. -/
theorem execute_workflow_errors_subset (env : RepoEnv) (cfg : Config)
    (operations : List String) (repositories branches : Option (List String))
    (errors0 : List String) (st et : ℚ) :
    errors0 ⊆ (execute_workflow env cfg operations repositories branches errors0 st et).2 := by
  simp only [execute_workflow]
  by_cases h : target_repos_for cfg repositories = []
  · simp only [h, if_pos rfl]
    exact List.subset_append_left _ _
  · simp only [h, if_neg, ite_self]
    exact workflow_fold_errors_subset env operations branches _ ([], errors0)

/-- The per-branch step of `custom_workflow` never removes entries from
`self.errors`. -/
theorem custom_step_errors_subset (env : RepoEnv)
    (wf : RepositoryConfig → BranchConfig → Except String (List OperationResult))
    (repo : RepositoryConfig) (acc : List BranchReport × List String)
    (bc : BranchConfig) :
    acc.2 ⊆ (custom_step env wf repo acc bc).2 := by
  unfold custom_step
  cases hwf : wf repo bc with
  | error e => exact List.subset_append_left _ _
  | ok operation_results =>
    cases hst : env.getStatus repo bc.name with
    | error e => exact List.subset_append_left _ _
    | ok branch_status => exact fun x hx => hx

/-- The branch loop of `custom_workflow` never removes entries from
`self.errors`. -/
theorem custom_fold_errors_subset (env : RepoEnv)
    (wf : RepositoryConfig → BranchConfig → Except String (List OperationResult))
    (repo : RepositoryConfig) :
    ∀ (targets : List BranchConfig) (acc : List BranchReport × List String),
      acc.2 ⊆ (targets.foldl (custom_step env wf repo) acc).2 := by
  intro targets
  induction targets with
  | nil => intro acc; exact fun x hx => hx
  | cons bc rest ih =>
    intro acc
    rw [List.foldl_cons]
    exact (custom_step_errors_subset env wf repo acc bc).trans
      (ih (custom_step env wf repo acc bc))

/-- The repository loop of `custom_workflow` never removes entries from
`self.errors` on normal completion. -/
theorem custom_go_errors_subset (env : RepoEnv)
    (wf : RepositoryConfig → BranchConfig → Except String (List OperationResult))
    (branches : Option (List String)) :
    ∀ (repos : List RepositoryConfig) (state state2 : List BranchReport × List String),
      custom_workflow_go env wf branches repos state = .ok state2 →
      state.2 ⊆ state2.2 := by
  intro repos
  induction repos with
  | nil =>
    intro state state2 hgo
    unfold custom_workflow_go at hgo
    cases hgo
    exact fun x hx => hx
  | cons repo rest ih =>
    intro state state2 hgo
    unfold custom_workflow_go at hgo
    cases hrepo : custom_workflow_repo env wf branches repo state with
    | error e => rw [hrepo] at hgo; cases hgo
    | ok state1 =>
      rw [hrepo] at hgo
      have hsub1 : state.2 ⊆ state1.2 := by
        unfold custom_workflow_repo at hrepo
        cases hmk : env.mkBranchOps repo with
        | some e => rw [hmk] at hrepo; cases hrepo
        | none =>
          rw [hmk] at hrepo
          simp only [Except.ok.injEq] at hrepo
          subst hrepo
          exact custom_fold_errors_subset env wf repo _ state
      exact hsub1.trans (ih state1 state2 hgo)

/-- The report a normally completing `custom_workflow` returns carries
exactly the `self.errors` list at return time, which extends the incoming
one. -/
theorem custom_workflow_report_errors (env : RepoEnv)
    (wf : RepositoryConfig → BranchConfig → Except String (List OperationResult))
    (cfg : Config) (repositories branches : Option (List String))
    (errors0 : List String) (st et : ℚ) (rep : Report) (errs : List String)
    (h : custom_workflow env wf cfg repositories branches errors0 st et = .ok (rep, errs)) :
    rep.errors = errs ∧ errors0 ⊆ errs := by
  simp only [custom_workflow] at h
  split at h
  · cases h
  · next state hgo =>
    simp only [Except.ok.injEq, Prod.mk.injEq] at h
    constructor
    · rw [← h.1, ← h.2]
      rfl
    · rw [← h.2]
      exact custom_go_errors_subset env wf branches _ ([], errors0) state hgo

/-- Either workflow entry point returns a report carrying exactly the
updated `self.errors`, and never removes entries from the incoming one. -/
theorem workflow_call_exec_errors (cfg : Config) (errors0 : List String)
    (c : WorkflowCall) (rep : Report) (errs : List String)
    (h : c.exec cfg errors0 = some (rep, errs)) :
    rep.errors = errs ∧ errors0 ⊆ errs := by
  cases c with
  | run env operations repositories branches st et =>
    simp only [WorkflowCall.exec, Option.some.injEq] at h
    have hfst : (execute_workflow env cfg operations repositories branches
        errors0 st et).1 = rep := by rw [h]
    have hsnd : (execute_workflow env cfg operations repositories branches
        errors0 st et).2 = errs := by rw [h]
    constructor
    · rw [← hfst, ← hsnd]
      exact execute_workflow_report_errors env cfg operations repositories branches
        errors0 st et
    · rw [← hsnd]
      exact execute_workflow_errors_subset env cfg operations repositories branches
        errors0 st et
  | custom env wf repositories branches st et =>
    simp only [WorkflowCall.exec] at h
    cases hcw : custom_workflow env wf cfg repositories branches errors0 st et with
    | error e => rw [hcw] at h; cases h
    | ok res =>
      rw [hcw] at h
      simp only [Option.some.injEq] at h
      subst h
      exact custom_workflow_report_errors env wf cfg repositories branches errors0
        st et rep errs hcw

/-- A sequence of normally completing workflow calls never removes
entries from `self.errors`. -/
theorem execChain_errors_subset (cfg : Config) :
    ∀ (cs : List WorkflowCall) (errs0 errs1 : List String),
      execChain cfg cs errs0 = some errs1 → errs0 ⊆ errs1 := by
  intro cs
  induction cs with
  | nil =>
    intro errs0 errs1 h
    unfold execChain at h
    cases h
    exact fun x hx => hx
  | cons c rest ih =>
    intro errs0 errs1 h
    unfold execChain at h
    cases hc : c.exec cfg errs0 with
    | none => rw [hc] at h; cases h
    | some res =>
      rw [hc] at h
      obtain ⟨rep, errs2⟩ := res
      have hsub := (workflow_call_exec_errors cfg errs0 c rep errs2 hc).2
      exact hsub.trans (ih errs2 errs1 h)

/-! ## Claim C10 -/

/-- C10: the orchestrator's run-level error list is instance state that
only ever grows — `self.errors` enters each workflow call (either
`execute_workflow` or `custom_workflow`) as the threaded list and every
recorded error survives both into that call's report and into the list
handed to the next call.  Hence for any two workflow calls of either
kind on the same instance, separated by any sequence of further workflow
calls, every error string in the earlier call's report is also in the
later call's report. -/
theorem run_level_errors_persist (cfg : Config) (errors0 : List String)
    (c1 c2 : WorkflowCall) (mid : List WorkflowCall)
    (rep1 rep2 : Report) (errs1 errsMid errs2 : List String)
    (h1 : c1.exec cfg errors0 = some (rep1, errs1))
    (hmid : execChain cfg mid errs1 = some errsMid)
    (h2 : c2.exec cfg errsMid = some (rep2, errs2)) :
    rep1.errors = errs1 ∧ rep2.errors = errs2 ∧
    ∀ e ∈ rep1.errors, e ∈ rep2.errors := by
  obtain ⟨hr1, -⟩ := workflow_call_exec_errors cfg errors0 c1 rep1 errs1 h1
  have hsubMid := execChain_errors_subset cfg mid errs1 errsMid hmid
  obtain ⟨hr2, hsub2⟩ := workflow_call_exec_errors cfg errsMid c2 rep2 errs2 h2
  refine ⟨hr1, hr2, ?_⟩
  intro e he
  rw [hr1] at he
  rw [hr2]
  exact hsub2 (hsubMid he)

/-- Witness for C10: a `custom_workflow` call whose user function raises
records a run-level error; after an intervening `execute_workflow` call
(which records another), a final `execute_workflow` call's report still
contains the custom call's error string. -/
theorem run_level_errors_persist_witness :
    "Custom workflow failed for main: boom" ∈
      (create_report
        [⟨"main", "alpha", [⟨true, "main", "fetch", "ok", none⟩], [], true⟩]
        0 0 (some ["Custom workflow failed for main: boom",
          "No repositories configured or specified"])).errors :=
  (run_level_errors_persist soloConfig []
      (.custom calmEnv (fun _ _ => .error "boom") none none 0 0)
      (.run calmEnv ["fetch"] none none 0 0)
      [.run calmEnv ["fetch"] (some ["zzz"]) none 0 0]
      (create_report [] 0 0 (some ["Custom workflow failed for main: boom"]))
      (create_report
        [⟨"main", "alpha", [⟨true, "main", "fetch", "ok", none⟩], [], true⟩]
        0 0 (some ["Custom workflow failed for main: boom",
          "No repositories configured or specified"]))
      ["Custom workflow failed for main: boom"]
      ["Custom workflow failed for main: boom",
        "No repositories configured or specified"]
      ["Custom workflow failed for main: boom",
        "No repositories configured or specified"]
      rfl rfl rfl).2.2
    "Custom workflow failed for main: boom" (by decide)

end NavaOps
